import Mathlib

/-!
Verification of the streaming statistics engine of the Parallel_Programming_Project
repository (serial, OpenMP and MPI stock-analysis variants).

The C programs are embedded shallowly: C `double` arithmetic is modelled by exact
rational arithmetic (`ℚ`); the square root taken at the very end of finalization is
modelled by `Real.sqrt` applied (in theorem statements only) to the rational
variance computed by the engine.  Machine integers (`int`, `long`) are modelled by
`ℤ`/`ℕ`; none of the verified quantities can overflow their C types on the inputs
considered.  The fixed per-decade accumulator arrays are modelled as functions from
the decade index.
-/

namespace Stock

/-- One row of stock data, as in the C struct `StockData`
(`char date[20]; double open, high, low, close, volume;`).
The field `open` of the C struct is called `open_` because `open` is a Lean keyword. -/
structure StockData where
  date : String
  open_ : ℚ
  high : ℚ
  low : ℚ
  close : ℚ
  volume : ℚ
deriving DecidableEq

/-- `daily_average` from the C sources: `(s.open + s.high + s.low + s.close) / 4.0`. -/
def daily_average (s : StockData) : ℚ :=
  (s.open_ + s.high + s.low + s.close) / 4

/-- `daily_return` from the C sources:
`if (prev == 0.0) return 0.0; return (curr - prev) / prev;`. -/
def daily_return (prev curr : ℚ) : ℚ :=
  if prev = 0 then 0 else (curr - prev) / prev

/-- The per-partition accumulator state of the engine: row count, sum of daily
averages, return count, sum of returns and sum of squared returns
(`total_records`, `sum_avg`, `num_returns`, `total_sum_ret`, `total_sum_ret_sq`
in the C sources). -/
structure Accum where
  rowCount : ℕ
  sumAvg : ℚ
  retCount : ℕ
  sumRet : ℚ
  sumRetSq : ℚ
deriving DecidableEq

/-- The zeroed accumulator created at pass start. -/
def Accum.zero : Accum := ⟨0, 0, 0, 0, 0⟩

/-- Componentwise addition of partial accumulators (the recombination step used by
the OpenMP reduction / MPI_Reduce(MPI_SUM) calls). -/
def Accum.add (a b : Accum) : Accum :=
  ⟨a.rowCount + b.rowCount, a.sumAvg + b.sumAvg, a.retCount + b.retCount,
    a.sumRet + b.sumRet, a.sumRetSq + b.sumRetSq⟩

/-- Sum of a list of partial accumulators. -/
def sumAccum (l : List Accum) : Accum := l.foldr Accum.add Accum.zero

/-- The chronologically adjacent pairs `(r[i], r[i+1])` of a record sequence;
the return loop `for (i = 0; i < n - 1; i++)` ranges over exactly these pairs. -/
def retPairs (l : List StockData) : List (StockData × StockData) := l.zip l.tail

/-- Row-part of the accumulation pass: for every record add `daily_average` to the
running sum and count the row (loop `for (i = 0; i < n; i++) avg_sum += daily_average(data[i]);`). -/
def accRows (l : List StockData) : Accum :=
  ⟨l.length, (l.map daily_average).sum, 0, 0, 0⟩

/-- Return-part of the accumulation pass over a list of adjacent record pairs:
for each pair compute `r = daily_return(prev.close, curr.close)` and add `r` and
`r*r` to the running sums, counting the return. -/
def accPairs (ps : List (StockData × StockData)) : Accum :=
  ⟨0, 0, ps.length,
    (ps.map (fun pr => daily_return pr.1.close pr.2.close)).sum,
    (ps.map (fun pr => daily_return pr.1.close pr.2.close
      * daily_return pr.1.close pr.2.close)).sum⟩

/-- The whole single-pass accumulation of the plain (unfiltered, global) variant:
row contributions over all records plus return contributions over all adjacent
pairs. -/
def accumulate (l : List StockData) : Accum :=
  Accum.add (accRows l) (accPairs (retPairs l))

/-- The derived summary produced at finalization.  The volatility reported by the C
programs is `sqrt varianceVal`; since the square root is irrational in general it is
taken with `Real.sqrt` in the statements, on top of the rational `varianceVal`. -/
structure Summary where
  meanPrice : ℚ
  meanReturn : ℚ
  varianceVal : ℚ
deriving DecidableEq

/-- Finalization, from the C sources:
`avg_price = sum_avg / n; mean_ret = total_sum_ret / num_returns;
mean_sq = total_sum_ret_sq / num_returns; variance = mean_sq - mean_ret*mean_ret;
if (variance < 0) variance = 0; volatility = sqrt(variance);`. -/
def finalize (a : Accum) : Summary :=
  let mean_price := a.sumAvg / a.rowCount
  let mean_ret := a.sumRet / a.retCount
  let mean_sq := a.sumRetSq / a.retCount
  let variance0 := mean_sq - mean_ret * mean_ret
  let variance := if variance0 < 0 then 0 else variance0
  ⟨mean_price, mean_ret, variance⟩

/-- `compute_volatility` from `open_mp.c` (and the serial baseline), without the
final square root: `if (n <= 1) return 0.0;` then two passes computing the mean of
the returns and the mean squared deviation.  The C function returns
`sqrt(variance / n)`; this definition returns the radicand `variance / n`, and the
C result is `Real.sqrt` of it (`sqrt 0 = 0` covers the `n <= 1` early return). -/
def compute_volatility_sq (returns : List ℚ) : ℚ :=
  if returns.length ≤ 1 then 0
  else
    let mean := returns.sum / returns.length
    ((returns.map (fun r => (r - mean) * (r - mean))).sum) / returns.length

theorem finalize_varianceVal_nonneg (a : Accum) : 0 ≤ (finalize a).varianceVal := by
  simp only [finalize]
  split
  · exact le_refl 0
  · exact le_of_not_lt (by assumption)

theorem compute_volatility_sq_nonneg (rs : List ℚ) : 0 ≤ compute_volatility_sq rs := by
  unfold compute_volatility_sq
  split
  · exact le_refl 0
  · apply div_nonneg
    · apply List.sum_nonneg
      intro x hx
      simp only [List.mem_map] at hx
      obtain ⟨r, _, rfl⟩ := hx
      exact mul_self_nonneg _
    · exact Nat.cast_nonneg _

theorem accRows_append (a b : List StockData) :
    accRows (a ++ b) = Accum.add (accRows a) (accRows b) := by
  simp [accRows, Accum.add]

theorem accPairs_append (a b : List (StockData × StockData)) :
    accPairs (a ++ b) = Accum.add (accPairs a) (accPairs b) := by
  simp [accPairs, Accum.add]

theorem sumAccum_map_accRows (chunks : List (List StockData)) :
    sumAccum (chunks.map accRows) = accRows chunks.flatten := by
  induction chunks with
  | nil => rfl
  | cons c cs ih =>
      simp only [List.map_cons, List.flatten_cons, sumAccum, List.foldr_cons, accRows_append]
      rw [← ih]; rfl

theorem sumAccum_map_accPairs (chunks : List (List (StockData × StockData))) :
    sumAccum (chunks.map accPairs) = accPairs chunks.flatten := by
  induction chunks with
  | nil => rfl
  | cons c cs ih =>
      simp only [List.map_cons, List.flatten_cons, sumAccum, List.foldr_cons, accPairs_append]
      rw [← ih]; rfl

/-- **C1.** Partitioning invariance: splitting the record sequence into contiguous
chunks for the row contributions, chunking the adjacent-pair sequence so that every
pair is counted exactly once for the return contributions, accumulating per chunk
and recombining the partial sums by addition yields the same accumulator — and
hence the same finalized Summary (mean price, mean return, variance, and therefore
the same volatility) — as the unsplit accumulation, for every chunking. -/
theorem partitioning_invariance (l : List StockData)
    (chunks : List (List StockData)) (pchunks : List (List (StockData × StockData)))
    (hc : chunks.flatten = l) (hp : pchunks.flatten = retPairs l) :
    Accum.add (sumAccum (chunks.map accRows)) (sumAccum (pchunks.map accPairs)) =
      accumulate l ∧
    finalize (Accum.add (sumAccum (chunks.map accRows)) (sumAccum (pchunks.map accPairs))) =
      finalize (accumulate l) ∧
    Real.sqrt ((finalize (Accum.add (sumAccum (chunks.map accRows))
        (sumAccum (pchunks.map accPairs)))).varianceVal) =
      Real.sqrt ((finalize (accumulate l)).varianceVal) := by
  have hacc : Accum.add (sumAccum (chunks.map accRows)) (sumAccum (pchunks.map accPairs)) =
      accumulate l := by
    rw [sumAccum_map_accRows, sumAccum_map_accPairs, hc, hp]
    rfl
  exact ⟨hacc, by rw [hacc], by rw [hacc]⟩

/-- First record of the C1 witness sequence. -/
def wrec0 : StockData := ⟨"2020-01-01", 1, 2, 3, 4, 0⟩

/-- Second record of the C1 witness sequence. -/
def wrec1 : StockData := ⟨"2020-01-02", 2, 3, 4, 5, 0⟩

/-- Third record of the C1 witness sequence. -/
def wrec2 : StockData := ⟨"2020-01-03", 3, 4, 5, 8, 0⟩

/-- Witness for C1: the three-record sequence `[wrec0, wrec1, wrec2]` split into
chunks `[wrec0] ++ [wrec1, wrec2]` with its two adjacent pairs split
`[(wrec0,wrec1)] ++ [(wrec1,wrec2)]`; the recombined accumulator equals the
unsplit one. -/
theorem partitioning_invariance_witness :
    ([[wrec0], [wrec1, wrec2]] : List (List StockData)).flatten = [wrec0, wrec1, wrec2] ∧
    ([[(wrec0, wrec1)], [(wrec1, wrec2)]] : List (List (StockData × StockData))).flatten =
      retPairs [wrec0, wrec1, wrec2] ∧
    Accum.add (sumAccum ([[wrec0], [wrec1, wrec2]].map accRows))
        (sumAccum ([[(wrec0, wrec1)], [(wrec1, wrec2)]].map accPairs)) =
      accumulate [wrec0, wrec1, wrec2] := by
  refine ⟨rfl, rfl, ?_⟩
  exact (partitioning_invariance [wrec0, wrec1, wrec2] [[wrec0], [wrec1, wrec2]]
    [[(wrec0, wrec1)], [(wrec1, wrec2)]] rfl rfl).1

/-- **C3.** `daily_return` is `0` when the previous close is exactly `0` (exact
equality comparison, no epsilon) and `(curr - prev) / prev` otherwise; in
particular `daily_return 0 100 = 0`. -/
theorem daily_return_spec :
    (∀ p c : ℚ, (p = 0 → daily_return p c = 0) ∧
      (p ≠ 0 → daily_return p c = (c - p) / p)) ∧
    daily_return 0 100 = 0 := by
  refine ⟨fun p c => ⟨fun h => ?_, fun h => ?_⟩, ?_⟩
  · simp [daily_return, h]
  · simp [daily_return, h]
  · simp [daily_return]

/-- Witness for C3: the two branch hypotheses discharged at `(0, 100)` and `(4, 6)`. -/
theorem daily_return_spec_witness :
    daily_return 0 100 = 0 ∧ daily_return 4 6 = (6 - 4) / 4 :=
  ⟨(daily_return_spec.1 0 100).1 rfl,
   (daily_return_spec.1 4 6).2 (by norm_num)⟩

/-- **C4.** For every accumulator with `return_count > 0`, finalization computes
`mean_return = sum_of_return / return_count`, the variance as
`max 0 (mean_sq_return - mean_return^2)` (clamped to zero before the square root),
and the volatility as the square root of that clamped variance (witnessed by the
square of `Real.sqrt` giving back the variance); it is a pure function of the
accumulator. -/
theorem finalize_spec (a : Accum) (_h : 0 < a.retCount) :
    (finalize a).meanReturn = a.sumRet / a.retCount ∧
    (finalize a).varianceVal =
      max 0 (a.sumRetSq / a.retCount - (a.sumRet / a.retCount) * (a.sumRet / a.retCount)) ∧
    Real.sqrt ((finalize a).varianceVal) * Real.sqrt ((finalize a).varianceVal) =
      ((finalize a).varianceVal : ℝ) := by
  refine ⟨rfl, ?_, ?_⟩
  · simp only [finalize]
    rcases lt_or_le (a.sumRetSq / a.retCount - (a.sumRet / a.retCount) * (a.sumRet / a.retCount))
      (0 : ℚ) with hlt | hle
    · rw [if_pos hlt, max_eq_left (le_of_lt hlt)]
    · rw [if_neg (not_lt.mpr hle), max_eq_right hle]
  · rw [Real.mul_self_sqrt]
    exact_mod_cast finalize_varianceVal_nonneg a

/-- Witness for C4: the finalization formulas at a concrete accumulator with
`retCount = 2`. -/
theorem finalize_spec_witness :
    0 < (Accum.mk 3 30 2 1 5).retCount ∧
    (finalize (Accum.mk 3 30 2 1 5)).meanReturn = (1 : ℚ) / 2 ∧
    (finalize (Accum.mk 3 30 2 1 5)).varianceVal = max 0 ((5 : ℚ) / 2 - 1 / 2 * (1 / 2)) := by
  have h := finalize_spec (Accum.mk 3 30 2 1 5) (by decide)
  refine ⟨by decide, ?_, ?_⟩
  · rw [h.1]; norm_num
  · rw [h.2.1]; norm_num

/-- **C5.** For every input record sequence — including adversarial ones — the
volatility reported by the engine is nonnegative: the clamped variance produced by
`finalize ∘ accumulate` is `≥ 0` (so its square root, the reported volatility, is
too), and likewise the radicand and result of `compute_volatility` are `≥ 0` for
every array of returns. -/
theorem volatility_nonneg :
    (∀ l : List StockData, 0 ≤ (finalize (accumulate l)).varianceVal ∧
      0 ≤ Real.sqrt ((finalize (accumulate l)).varianceVal)) ∧
    (∀ rs : List ℚ, 0 ≤ compute_volatility_sq rs ∧
      0 ≤ Real.sqrt (compute_volatility_sq rs)) := by
  constructor
  · intro l
    exact ⟨finalize_varianceVal_nonneg _, Real.sqrt_nonneg _⟩
  · intro rs
    exact ⟨compute_volatility_sq_nonneg rs, Real.sqrt_nonneg _⟩

/-- `MIN_PRICE` from the decade-bucketed sources (`#define MIN_PRICE 0.01`). -/
def MIN_PRICE : ℚ := 0.01

/-- `MAX_PRICE` from the decade-bucketed sources (`#define MAX_PRICE 10000.0`). -/
def MAX_PRICE : ℚ := 10000

/-- `MIN_YEAR_GLOBAL` (`#define MIN_YEAR_GLOBAL 1900`). -/
def MIN_YEAR_GLOBAL : ℤ := 1900

/-- `MAX_YEAR_GLOBAL` (`#define MAX_YEAR_GLOBAL 2100`). -/
def MAX_YEAR_GLOBAL : ℤ := 2100

/-- `MAX_DECADES` (`#define MAX_DECADES (((MAX_YEAR_GLOBAL - MIN_YEAR_GLOBAL) / 10) + 1)`,
i.e. 21). -/
def MAX_DECADES : ℤ := (MAX_YEAR_GLOBAL - MIN_YEAR_GLOBAL) / 10 + 1

/-- Value of a list of decimal digit characters, accumulated left to right. -/
def digitsVal (ds : List Char) : ℤ :=
  ds.foldl (fun a c => a * 10 + ((c.toNat : ℤ) - 48)) 0

/-- Year extraction from a record's date string, modelling
`sscanf(data[i].date, "%d", &year)` with `year` initialised to `0`: skip leading
spaces, read an optional minus sign and the maximal run of leading digits (an
unparsable prefix leaves `0`). -/
def parseYear (s : String) : ℤ :=
  match s.toList.dropWhile (fun c => c = ' ') with
  | '-' :: rest => -(digitsVal (rest.takeWhile Char.isDigit))
  | cs => digitsVal (cs.takeWhile Char.isDigit)

/-- The decade partition key of the bucketed variants: the year-range guard
`if (year < MIN_YEAR_GLOBAL || year > MAX_YEAR_GLOBAL) continue;` followed by
`decade_index = (year - MIN_YEAR_GLOBAL) / 10` (C `int` division truncates toward
zero, hence `Int.tdiv`) and the bound guard
`if (decade_index < 0 || decade_index >= MAX_DECADES) continue;`.
`none` means the record is dropped from bucketed accumulation. -/
def decadeIndex (year : ℤ) : Option ℕ :=
  if year < MIN_YEAR_GLOBAL ∨ MAX_YEAR_GLOBAL < year then none
  else
    let idx := (year - MIN_YEAR_GLOBAL).tdiv 10
    if idx < 0 ∨ MAX_DECADES ≤ idx then none
    else some idx.toNat

/-- The per-decade accumulator arrays of the bucketed variants
(`sum_avg_decade`, `count_rows_decade`, `sum_ret_decade`, `sum_ret_sq_decade`,
`count_ret_decade`), modelled as functions of the decade index. -/
structure DecadeAcc where
  sum_avg : ℕ → ℚ
  count_rows : ℕ → ℕ
  sum_ret : ℕ → ℚ
  sum_ret_sq : ℕ → ℚ
  count_ret : ℕ → ℕ

/-- The zeroed per-decade accumulators (`= {0.0}` / `= {0}` initialisers). -/
def DecadeAcc.zero : DecadeAcc := ⟨fun _ => 0, fun _ => 0, fun _ => 0, fun _ => 0, fun _ => 0⟩

/-- One iteration of the bucketed daily-average loop: drop the record unless its
year maps to a bucket and all four of open/high/low/close lie in
`[MIN_PRICE, MAX_PRICE]`; otherwise add `(o+h+l+c)/4` to the bucket's average sum
and count the row. -/
def decadeRowStep (a : DecadeAcc) (s : StockData) : DecadeAcc :=
  match decadeIndex (parseYear s.date) with
  | none => a
  | some idx =>
    if MIN_PRICE ≤ s.open_ ∧ s.open_ ≤ MAX_PRICE ∧
       MIN_PRICE ≤ s.high ∧ s.high ≤ MAX_PRICE ∧
       MIN_PRICE ≤ s.low ∧ s.low ≤ MAX_PRICE ∧
       MIN_PRICE ≤ s.close ∧ s.close ≤ MAX_PRICE then
      { a with
        sum_avg := fun n => if n = idx then
            a.sum_avg n + (s.open_ + s.high + s.low + s.close) / 4 else a.sum_avg n
        count_rows := fun n => if n = idx then a.count_rows n + 1 else a.count_rows n }
    else a

/-- One iteration of the bucketed daily-return loop over the adjacent pair
`(r[i], r[i+1])`: bucket by the year of `r[i]`; reject unless both closes lie in
`[MIN_PRICE, MAX_PRICE]` and the previous close is nonzero; compute
`r = (q - p) / p` and exclude the pair entirely when `|r| > 1` (extreme outlier,
never clipped); otherwise add `r` and `r*r` to the bucket's return sums and count
the return. -/
def decadeRetStep (a : DecadeAcc) (pr : StockData × StockData) : DecadeAcc :=
  let p := pr.1.close
  let q := pr.2.close
  match decadeIndex (parseYear pr.1.date) with
  | none => a
  | some idx =>
    if MIN_PRICE ≤ p ∧ p ≤ MAX_PRICE ∧ MIN_PRICE ≤ q ∧ q ≤ MAX_PRICE ∧ p ≠ 0 then
      let r := (q - p) / p
      if 1 < |r| then a
      else
        { a with
          sum_ret := fun n => if n = idx then a.sum_ret n + r else a.sum_ret n
          sum_ret_sq := fun n => if n = idx then a.sum_ret_sq n + r * r else a.sum_ret_sq n
          count_ret := fun n => if n = idx then a.count_ret n + 1 else a.count_ret n }
    else a

/-- The bucketed accumulation pass of the decade variants: the daily-average loop
over all records followed by the daily-return loop over all adjacent pairs. -/
def decadeAccumulate (l : List StockData) : DecadeAcc :=
  (retPairs l).foldl decadeRetStep (l.foldl decadeRowStep DecadeAcc.zero)

/-- One printed line of the per-decade report: defaults are `0.0`; `mean_price` is
computed only when `rows > 0`; volatility, mean daily return and approximate
annual return are computed only when `rets > 0`, the latter two printed as "N/A"
otherwise (modelled by `Option`, `none` = "N/A").  `vol_sq` is the clamped
variance whose square root the program prints. -/
structure DecadeLine where
  rows : ℕ
  mean_price : ℚ
  vol_sq : ℚ
  mean_r : Option ℚ
  annual_r : Option ℚ
deriving DecidableEq

/-- The finalization of one decade bucket, from the report loop of the bucketed
variants. -/
def decadeLine (a : DecadeAcc) (idx : ℕ) : DecadeLine :=
  let rows := a.count_rows idx
  let rets := a.count_ret idx
  let mean_r0 : ℚ := a.sum_ret idx / rets
  let mean_r2 : ℚ := a.sum_ret_sq idx / rets
  let var0 := mean_r2 - mean_r0 * mean_r0
  { rows := rows
    mean_price := if 0 < rows then a.sum_avg idx / rows else 0
    vol_sq := if 0 < rets then (if var0 < 0 then 0 else var0) else 0
    mean_r := if 0 < rets then some mean_r0 else none
    annual_r := if 0 < rets then some (mean_r0 * 252) else none }

/-- **C2 counterexample.** Two valid rows (prices inside `[0.01, 10000]`, years
1970 and 1971, both in decade bucket 7) whose single adjacent pair is excluded by
the outlier filter (`r = (3-1)/1 = 2`, `|r| > 1`): the bucket has
`row_count = 2` but `return_count = 0 ≠ row_count - 1`. -/
theorem return_count_counterexample :
    (decadeAccumulate [⟨"1970-01-01", 1, 1, 1, 1, 0⟩, ⟨"1971-01-01", 3, 3, 3, 3, 0⟩]).count_rows 7 = 2 ∧
    (decadeAccumulate [⟨"1970-01-01", 1, 1, 1, 1, 0⟩, ⟨"1971-01-01", 3, 3, 3, 3, 0⟩]).count_ret 7 ≠
      (decadeAccumulate [⟨"1970-01-01", 1, 1, 1, 1, 0⟩, ⟨"1971-01-01", 3, 3, 3, 3, 0⟩]).count_rows 7 - 1 := by
  have h1 : decadeIndex (parseYear "1970-01-01") = some 7 := by decide
  have h2 : decadeIndex (parseYear "1971-01-01") = some 7 := by decide
  norm_num [decadeAccumulate, retPairs, List.zip, List.zipWith, decadeRowStep, decadeRetStep,
    DecadeAcc.zero, h1, h2, MIN_PRICE, MAX_PRICE, abs_le]

/-- **C2 (amended).** In the plain (unfiltered) accumulation, for every record
sequence with at least 2 rows the number of return contributions equals the number
of row contributions minus one; in the decade-bucketed variant the invariant can
fail because the data-quality filters may drop a pair whose rows are both
counted. -/
theorem return_count_amended (l : List StockData) (h : 2 ≤ l.length) :
    (accumulate l).retCount = (accumulate l).rowCount - 1 := by
  simp only [accumulate, Accum.add, accRows, accPairs, retPairs]
  simp only [List.length_zip, List.length_tail]
  omega

/-- Witness for the amended C2: a concrete two-record sequence. -/
theorem return_count_amended_witness :
    2 ≤ ([⟨"2020-01-01", 1, 1, 1, 10, 0⟩, ⟨"2020-01-02", 1, 1, 1, 20, 0⟩] : List StockData).length ∧
    (accumulate [⟨"2020-01-01", 1, 1, 1, 10, 0⟩, ⟨"2020-01-02", 1, 1, 1, 20, 0⟩]).retCount =
      (accumulate [⟨"2020-01-01", 1, 1, 1, 10, 0⟩, ⟨"2020-01-02", 1, 1, 1, 20, 0⟩]).rowCount - 1 :=
  ⟨by decide,
   return_count_amended [⟨"2020-01-01", 1, 1, 1, 10, 0⟩, ⟨"2020-01-02", 1, 1, 1, 20, 0⟩] (by decide)⟩

/-- **C6.** The decade partition key is `(year - 1900) / 10` truncated toward zero
for years in `[1900, 2100]` (in-range years are never dropped by the bound guard),
out-of-range years are dropped entirely (`none`, not clamped to a nearest bucket),
and the record date "1975-03-01" maps to bucket index 7. -/
theorem decade_bucketing (y : ℤ) :
    (1900 ≤ y → y ≤ 2100 → decadeIndex y = some ((y - 1900).tdiv 10).toNat) ∧
    (y < 1900 ∨ 2100 < y → decadeIndex y = none) ∧
    decadeIndex (parseYear "1975-03-01") = some 7 := by
  refine ⟨fun h1 h2 => ?_, fun h => ?_, by decide⟩
  · have hnn : (0 : ℤ) ≤ y - 1900 := by omega
    have htd : (y - 1900).tdiv 10 = (y - 1900) / 10 := Int.tdiv_eq_ediv hnn (by norm_num)
    simp only [decadeIndex, MIN_YEAR_GLOBAL, MAX_YEAR_GLOBAL, MAX_DECADES, htd]
    rw [if_neg (by omega), if_neg (by omega)]
  · simp only [decadeIndex, MIN_YEAR_GLOBAL, MAX_YEAR_GLOBAL]
    rw [if_pos (by omega)]

/-- Witness for C6: the in-range branch at 1975 and the dropped branch at 2101. -/
theorem decade_bucketing_witness :
    (1900 : ℤ) ≤ 1975 ∧ (1975 : ℤ) ≤ 2100 ∧
    decadeIndex 1975 = some (((1975 : ℤ) - 1900).tdiv 10).toNat ∧
    ((2101 : ℤ) < 1900 ∨ (2100 : ℤ) < 2101) ∧ decadeIndex 2101 = none :=
  ⟨by norm_num, by norm_num,
   (decade_bucketing 1975).1 (by norm_num) (by norm_num),
   Or.inr (by norm_num),
   (decade_bucketing 2101).2.1 (Or.inr (by norm_num))⟩

/-- **C7.** In the decade-bucketed variant, an adjacent pair whose first record's
year maps to bucket `b` contributes to the return sums (its bucket's return count
increments) if and only if both closes lie in `[0.01, 10000]`, the previous close
is nonzero, and the magnitude of the computed return is `≤ 1`; a pair failing the
filter — in particular one whose return magnitude exceeds 1 — is excluded
entirely, leaving the whole accumulator unchanged (never clipped to 1). -/
theorem return_filter_spec (a : DecadeAcc) (s t : StockData) (b : ℕ)
    (hb : decadeIndex (parseYear s.date) = some b) :
    ((decadeRetStep a (s, t)).count_ret b = a.count_ret b + 1 ↔
      (MIN_PRICE ≤ s.close ∧ s.close ≤ MAX_PRICE ∧
       MIN_PRICE ≤ t.close ∧ t.close ≤ MAX_PRICE ∧ s.close ≠ 0 ∧
       |(t.close - s.close) / s.close| ≤ 1)) ∧
    (¬ (MIN_PRICE ≤ s.close ∧ s.close ≤ MAX_PRICE ∧
        MIN_PRICE ≤ t.close ∧ t.close ≤ MAX_PRICE ∧ s.close ≠ 0 ∧
        |(t.close - s.close) / s.close| ≤ 1) →
      decadeRetStep a (s, t) = a) := by
  have hstep : decadeRetStep a (s, t) =
      (if MIN_PRICE ≤ s.close ∧ s.close ≤ MAX_PRICE ∧
          MIN_PRICE ≤ t.close ∧ t.close ≤ MAX_PRICE ∧ s.close ≠ 0 then
        if 1 < |(t.close - s.close) / s.close| then a
        else
          { a with
            sum_ret := fun n => if n = b then a.sum_ret n + (t.close - s.close) / s.close
              else a.sum_ret n
            sum_ret_sq := fun n => if n = b then
              a.sum_ret_sq n + (t.close - s.close) / s.close * ((t.close - s.close) / s.close)
              else a.sum_ret_sq n
            count_ret := fun n => if n = b then a.count_ret n + 1 else a.count_ret n }
      else a) := by
    simp only [decadeRetStep, hb]
  by_cases hp : MIN_PRICE ≤ s.close ∧ s.close ≤ MAX_PRICE ∧
      MIN_PRICE ≤ t.close ∧ t.close ≤ MAX_PRICE ∧ s.close ≠ 0
  · by_cases hr : 1 < |(t.close - s.close) / s.close|
    · rw [hstep, if_pos hp, if_pos hr]
      constructor
      · constructor
        · intro hcontra
          exact absurd hcontra (Nat.ne_of_lt (Nat.lt_succ_self _))
        · intro hc
          exact absurd hc.2.2.2.2.2 (not_le.mpr hr)
      · intro _; rfl
    · rw [hstep, if_pos hp, if_neg hr]
      constructor
      · simp only [if_pos rfl]
        constructor
        · intro _
          exact ⟨hp.1, hp.2.1, hp.2.2.1, hp.2.2.2.1, hp.2.2.2.2, not_lt.mp hr⟩
        · intro _; rfl
      · intro hc
        exact absurd ⟨hp.1, hp.2.1, hp.2.2.1, hp.2.2.2.1, hp.2.2.2.2, not_lt.mp hr⟩ hc
  · rw [hstep, if_neg hp]
    constructor
    · constructor
      · intro hcontra
        exact absurd hcontra (Nat.ne_of_lt (Nat.lt_succ_self _))
      · intro hc
        exact absurd ⟨hc.1, hc.2.1, hc.2.2.1, hc.2.2.2.1, hc.2.2.2.2.1⟩ hp
    · intro _; rfl

/-- Witness for C7: a pair with valid closes 1 and 3/2 in bucket 7 whose return
1/2 passes the filter, so the bucket's return count increments. -/
theorem return_filter_spec_witness :
    decadeIndex (parseYear "1975-03-01") = some 7 ∧
    (decadeRetStep DecadeAcc.zero
      (⟨"1975-03-01", 1, 1, 1, 1, 0⟩, ⟨"1975-03-02", 1, 1, 1, 3/2, 0⟩)).count_ret 7 =
      DecadeAcc.zero.count_ret 7 + 1 := by
  have hb : decadeIndex (parseYear "1975-03-01") = some 7 := by decide
  refine ⟨hb, ?_⟩
  exact ((return_filter_spec DecadeAcc.zero
    ⟨"1975-03-01", 1, 1, 1, 1, 0⟩ ⟨"1975-03-02", 1, 1, 1, 3/2, 0⟩ 7 hb).1).mpr
    (by norm_num [MIN_PRICE, MAX_PRICE, abs_le])

/-- The printed end year of a decade label, from the report loop of the bucketed
variants: `int decade_end = (decade_start == 2010) ? 2020 : (decade_start + 9);`. -/
def decadeEnd (decade_start : ℤ) : ℤ :=
  if decade_start = 2010 then 2020 else decade_start + 9

/-- The decade start years visited by the report loop
`for (decade_start = first_decade; decade_start <= last_decade; decade_start += 10)`
with `last_decade = 2010` hard-coded. -/
def printedDecades (first : ℤ) : List ℤ :=
  if _h : first ≤ 2010 then first :: printedDecades (first + 10) else []
termination_by (2011 - first).toNat
decreasing_by omega

theorem printedDecades_cons {f : ℤ} (h : f ≤ 2010) :
    printedDecades f = f :: printedDecades (f + 10) := by
  conv_lhs => rw [printedDecades.eq_def]
  simp [h]

theorem printedDecades_nil {f : ℤ} (h : 2010 < f) : printedDecades f = [] := by
  conv_lhs => rw [printedDecades.eq_def]
  simp [not_le.mpr h]

theorem printedDecades_le (f : ℤ) : ∀ x ∈ printedDecades f, x ≤ 2010 := by
  generalize hn : (2011 - f).toNat = n
  induction n using Nat.strong_induction_on generalizing f with
  | _ n ih =>
      rcases le_or_lt f 2010 with hf | hf
      · rw [printedDecades_cons hf]
        intro x hx
        rcases List.mem_cons.mp hx with rfl | hx
        · exact hf
        · exact ih (2011 - (f + 10)).toNat (by omega) (f + 10) rfl x hx
      · rw [printedDecades_nil hf]
        intro x hx
        exact absurd hx (List.not_mem_nil x)

theorem printedDecades_getLast (f : ℤ) (hdvd : (10 : ℤ) ∣ f) (hle : f ≤ 2010) :
    (printedDecades f).getLast? = some 2010 := by
  generalize hn : (2011 - f).toNat = n
  induction n using Nat.strong_induction_on generalizing f with
  | _ n ih =>
      rcases eq_or_lt_of_le hle with heq | hlt
      · subst heq
        rw [printedDecades_cons (by norm_num), printedDecades_nil (by norm_num)]
        rfl
      · obtain ⟨k, hk⟩ := hdvd
        have h10 : f + 10 ≤ 2010 := by omega
        rw [printedDecades_cons hle, printedDecades_cons h10, List.getLast?_cons_cons,
          ← printedDecades_cons h10]
        exact ih (2011 - (f + 10)).toNat (by omega) (f + 10)
          (dvd_add ⟨k, hk⟩ (dvd_refl 10)) h10 rfl

/-- **C8.** Every decade label visited by the report loop covers
`[decade_start, decade_start + 9]`, except the final configured decade 2010 —
the last start year the loop visits when the first decade is a multiple of 10 not
exceeding 2010 — which is printed with the inclusive end adjusted by one, as
`[2010, 2020]`. -/
theorem decade_label_ranges (f ds : ℤ) (hdvd : (10 : ℤ) ∣ f) (hle : f ≤ 2010)
    (hmem : ds ∈ printedDecades f) :
    (ds ≠ 2010 → decadeEnd ds = ds + 9) ∧
    (ds = 2010 → decadeEnd ds = 2020) ∧
    ds ≤ 2010 ∧
    (printedDecades f).getLast? = some 2010 := by
  refine ⟨fun h => ?_, fun h => ?_, printedDecades_le f ds hmem,
    printedDecades_getLast f hdvd hle⟩
  · simp [decadeEnd, h]
  · simp [decadeEnd, h]

/-- Witness for C8: the loop starting at 1970 contains 1980, whose label ends at
1989, and its last visited decade is 2010 (printed as 2010-2020). -/
theorem decade_label_ranges_witness :
    (10 : ℤ) ∣ 1970 ∧ (1970 : ℤ) ≤ 2010 ∧ (1980 : ℤ) ∈ printedDecades 1970 ∧
    decadeEnd 1980 = 1980 + 9 ∧ decadeEnd 2010 = 2020 ∧
    (printedDecades 1970).getLast? = some 2010 := by
  have hmem : (1980 : ℤ) ∈ printedDecades 1970 := by
    rw [printedDecades_cons (by norm_num), printedDecades_cons (by norm_num)]
    exact List.mem_cons_of_mem _ (by norm_num [List.mem_cons])
  have h := decade_label_ranges 1970 1980 (by norm_num) (by norm_num) hmem
  exact ⟨by norm_num, by norm_num, hmem, h.1 (by norm_num), by simp [decadeEnd], h.2.2.2⟩

/-- **C9.** The division-by-zero guards produce defined results: a zero previous
close yields the defined return 0; a bucket with `row_count = 0` reports the
defined default mean price 0 (no division by the zero count); a bucket with
`return_count = 0` reports "N/A" (modelled `none`) for mean daily return and
annual return and the defined default 0 for the volatility, with no division by
the zero count performed. -/
theorem division_guards (p q : ℚ) (a : DecadeAcc) (idx : ℕ) :
    (p = 0 → daily_return p q = 0) ∧
    (a.count_rows idx = 0 → (decadeLine a idx).mean_price = 0) ∧
    (a.count_ret idx = 0 →
      (decadeLine a idx).mean_r = none ∧
      (decadeLine a idx).annual_r = none ∧
      (decadeLine a idx).vol_sq = 0) := by
  refine ⟨fun h => by simp [daily_return, h], fun h => ?_, fun h => ?_⟩
  · simp [decadeLine, h]
  · simp [decadeLine, h]

/-- Witness for C9: the guards at `prev = 0` and the all-zero accumulator. -/
theorem division_guards_witness :
    daily_return 0 5 = 0 ∧
    (decadeLine DecadeAcc.zero 3).mean_price = 0 ∧
    (decadeLine DecadeAcc.zero 3).mean_r = none ∧
    (decadeLine DecadeAcc.zero 3).annual_r = none ∧
    (decadeLine DecadeAcc.zero 3).vol_sq = 0 := by
  have h := division_guards 0 5 DecadeAcc.zero 3
  have h2 := h.2.2 rfl
  exact ⟨h.1 rfl, h.2.1 rfl, h2.1, h2.2.1, h2.2.2⟩

/-- The contiguous block of records rank `rank` receives from
`MPI_Scatter(data, chunk * sizeof(StockData), ..., local_data, ...)` in the
scatter-based MPI variant, where `chunk = n / size` (integer division): the
`chunk` records starting at global index `rank * chunk`. -/
def localData (recs : List StockData) (size rank : ℕ) : List StockData :=
  (recs.drop (rank * (recs.length / size))).take (recs.length / size)

/-- Rank `rank`'s local sum of daily averages
(`for (i = 0; i < chunk; i++) local_sum_avg += daily_average(local_data[i]);`). -/
def local_sum_avg (recs : List StockData) (size rank : ℕ) : ℚ :=
  ((localData recs size rank).map daily_average).sum

/-- Rank `rank`'s locally computed daily returns
(`if (i > 0) local_returns[i-1] = daily_return(local_data[i-1].close, local_data[i].close);`):
returns of adjacent pairs inside the rank's own chunk only. -/
def local_returns (recs : List StockData) (size rank : ℕ) : List ℚ :=
  (retPairs (localData recs size rank)).map (fun pr => daily_return pr.1.close pr.2.close)

/-- The coordinator's reduced sum of averages
(`MPI_Reduce(&local_sum_avg, &global_sum_avg, ..., MPI_SUM, ...)`). -/
def global_sum_avg (recs : List StockData) (size : ℕ) : ℚ :=
  ((List.range size).map (local_sum_avg recs size)).sum

/-- The reported average daily price of the scatter-based MPI variant:
`avg_price = global_sum_avg / n` with `n` the full record count. -/
def avg_price (recs : List StockData) (size : ℕ) : ℚ :=
  global_sum_avg recs size / recs.length

theorem scatter_flatten (l : List StockData) (k c : ℕ) :
    ((List.range k).map (fun r => (l.drop (r * c)).take c)).flatten = l.take (k * c) := by
  induction k with
  | zero => simp
  | succ k ih =>
      rw [List.range_succ, List.map_append, List.flatten_append, ih]
      simp only [List.map_cons, List.map_nil, List.flatten_cons, List.flatten_nil,
        List.append_nil]
      rw [← List.take_add]
      congr 1
      ring

theorem localData_flatten (recs : List StockData) (size : ℕ) :
    ((List.range size).map (localData recs size)).flatten =
      recs.take (size * (recs.length / size)) := by
  have h := scatter_flatten recs size (recs.length / size)
  simpa [localData, Nat.mul_comm] using h

theorem retPairs_length (l : List StockData) : (retPairs l).length = l.length - 1 := by
  simp only [retPairs, List.length_zip, List.length_tail]
  omega

theorem localData_length (recs : List StockData) (size rank : ℕ) (hr : rank < size) :
    (localData recs size rank).length = recs.length / size := by
  simp only [localData, List.length_take, List.length_drop]
  have h1 : rank * (recs.length / size) + recs.length / size ≤ size * (recs.length / size) := by
    rw [← Nat.succ_mul]
    exact Nat.mul_le_mul_right _ (Nat.succ_le_of_lt hr)
  have h2 : size * (recs.length / size) ≤ recs.length := by
    rw [Nat.mul_comm]
    exact Nat.div_mul_le_self recs.length size
  omega

theorem global_sum_avg_take (recs : List StockData) (size : ℕ) :
    global_sum_avg recs size =
      ((recs.take (size * (recs.length / size))).map daily_average).sum := by
  rw [← localData_flatten recs size]
  simp only [global_sum_avg, local_sum_avg, List.map_flatten, List.sum_flatten, List.map_map]
  rfl

/-- **C10.** In the scatter-based MPI variant: only the first
`size * (n / size)` records are scattered (the final `n mod size` records are
received by no rank and contribute to no accumulator); each rank computes only the
`chunk - 1` returns internal to its own chunk, so exactly `size * (chunk - 1)`
returns are computed in total and the returns spanning chunk boundaries never are;
yet the reported average daily price divides the reduced sum over the scattered
prefix by the full record count `n`.  Consequently the reported average depends on
the process count even in exact arithmetic: on a concrete three-record input, one
process reports 4 while two processes report 2/3. -/
theorem mpi_scatter_truncation :
    (∀ (recs : List StockData) (size : ℕ), 0 < size →
      ((List.range size).map (localData recs size)).flatten =
        recs.take (size * (recs.length / size)) ∧
      recs.length - size * (recs.length / size) = recs.length % size ∧
      ((List.range size).map (fun r => (local_returns recs size r).length)).sum =
        size * (recs.length / size - 1) ∧
      avg_price recs size =
        ((recs.take (size * (recs.length / size))).map daily_average).sum / recs.length) ∧
    avg_price [⟨"d1", 1, 1, 1, 1, 0⟩, ⟨"d2", 1, 1, 1, 1, 0⟩, ⟨"d3", 10, 10, 10, 10, 0⟩] 1 ≠
      avg_price [⟨"d1", 1, 1, 1, 1, 0⟩, ⟨"d2", 1, 1, 1, 1, 0⟩, ⟨"d3", 10, 10, 10, 10, 0⟩] 2 := by
  constructor
  · intro recs size hsize
    refine ⟨localData_flatten recs size, ?_, ?_, ?_⟩
    · have h := Nat.mod_add_div recs.length size
      omega
    · have hlen : ∀ r ∈ List.range size,
          (local_returns recs size r).length = recs.length / size - 1 := by
        intro r hr
        simp only [local_returns, List.length_map, retPairs_length]
        rw [localData_length recs size r (List.mem_range.mp hr)]
      rw [List.map_congr_left hlen]
      simp [List.map_const', Nat.mul_comm]
    · rw [avg_price, global_sum_avg_take]
  · simp only [avg_price, global_sum_avg, local_sum_avg, localData, List.range,
      List.range.loop, List.map, daily_average]
    norm_num

/-- Witness for C10: the general part instantiated at the concrete three-record
input with two processes (chunk `3 / 2 = 1`; one record dropped, zero returns
computed, reported average still divided by 3). -/
theorem mpi_scatter_truncation_witness :
    0 < 2 ∧
    ((List.range 2).map
        (localData [⟨"d1", 1, 1, 1, 1, 0⟩, ⟨"d2", 1, 1, 1, 1, 0⟩, ⟨"d3", 10, 10, 10, 10, 0⟩] 2)).flatten =
      [⟨"d1", 1, 1, 1, 1, 0⟩, ⟨"d2", 1, 1, 1, 1, 0⟩, ⟨"d3", 10, 10, 10, 10, 0⟩].take (2 * (3 / 2)) ∧
    ((List.range 2).map (fun r =>
        (local_returns [⟨"d1", 1, 1, 1, 1, 0⟩, ⟨"d2", 1, 1, 1, 1, 0⟩, ⟨"d3", 10, 10, 10, 10, 0⟩] 2 r).length)).sum =
      2 * (3 / 2 - 1) := by
  have h := (mpi_scatter_truncation.1
    [⟨"d1", 1, 1, 1, 1, 0⟩, ⟨"d2", 1, 1, 1, 1, 0⟩, ⟨"d3", 10, 10, 10, 10, 0⟩] 2 (by norm_num))
  exact ⟨by norm_num, h.1, h.2.2.1⟩

end Stock
